import Mathlib

/-!
Verification of the bank subsystem of the melanie repository
(src/melaniebot/core/bank.py) against its natural-language specification.

The Python module is embedded shallowly: the persisted Config store is
represented as in-memory association lists in insertion order (Python dicts
preserve insertion order), and every mutating operation is a function
from a state to a pair of the final state and a result.  A result of the
form (state, Except.error e) models a raised Python exception: the state
component records the side effects already applied when the exception
propagates, exactly as in Python.  Machine integers are Lean Int, since
Python integers are unbounded.  The isinstance type checks of the source
are captured by the Lean types themselves.  The in-process settings cache
of the module is a write-through cache that can never diverge from the
store inside one process, so settings reads are embedded as pure store
reads; the mode-flag cache is modelled explicitly because set_global
manipulates it.
-/

deriving instance DecidableEq for Except

namespace Bank

/-- Error taxonomy of bank.py.  Each constructor corresponds to one raise
site in the source; the source attaches human-readable messages, which we
replace by the constructor identity.  There is no reconciliation-failure
constructor because the source defines and raises no such error. -/
inductive BankErr where
  /-- ValueError raised by withdraw, deposit and transfer when the helper
  named invalid amount reports the amount illegal (bank.py lines 330, 368, 409). -/
  | invalidAmount
  /-- ValueError raised by withdraw_credits on insufficient funds (line 335). -/
  | insufficientFunds
  /-- ValueError raised by set_balance on a negative requested balance (line 278). -/
  | negativeBalance
  /-- RuntimeError raised by the settings getters when the bank is local and
  no guild argument was supplied (lines 689, 754, 819). -/
  | runtimeMissingGuild
  /-- TypeError raised by get_leaderboard when the bank is local and no guild
  was supplied (line 531). -/
  | typeMissingGuild
  /-- AttributeError raised by attribute access member.guild on an object
  that has no guild attribute (reachable from get_account in local mode). -/
  | attrErr
  /-- errors.BalanceTooHigh carrying the display name, the maximum balance
  and the currency name (lines 285, 418). -/
  | balanceTooHigh (user : String) (max_balance : Int) (currency : String)
  /-- commands.UserFeedbackCheckFailure raised inside the cost decorator
  (lines 981, 988). -/
  | userFeedback
deriving DecidableEq

/-- Account record, mirroring the class Account of bank.py and the
registered member defaults: name, balance, created_at. -/
structure Account where
  name : String
  balance : Int
  created_at : Int
deriving DecidableEq

/-- Per-scope settings, mirroring the registered global and guild defaults:
bank_name, currency, default_balance, max_balance. -/
structure Settings where
  bank_name : String
  currency : String
  default_balance : Int
  max_balance : Int
deriving DecidableEq

/-- A discord member or user.  A plain user has no guild attribute, which we
model by guildId none. -/
structure Member where
  id : Nat
  guildId : Option Nat
  displayName : String
deriving DecidableEq

/-- A guild object as used by get_leaderboard: its id and the ids of its
current members (guild.get_member succeeds exactly on those). -/
structure GuildObj where
  id : Nat
  member_ids : List Nat
deriving DecidableEq

/-- The module constant MAX BALANCE, two to the sixty-third minus one. -/
def maxBalanceConst : Int := 2 ^ 63 - 1

/-- Registered account defaults (the DEFAULT MEMBER dict of bank.py). -/
def defaultAccount : Account := { name := "", balance := 0, created_at := 0 }

/-- Registered guild settings defaults (the DEFAULT GUILD dict). -/
def defaultSettings : Settings :=
  { bank_name := "Twentysix bank"
    currency := "credits"
    default_balance := 100
    max_balance := maxBalanceConst }

/-- Whole-bank state: the persisted flag is_global, the in-process cache of
that flag, the user namespace (global accounts), the member namespace
(guild id to the accounts of that guild), and the settings. -/
structure BankState where
  storedIsGlobal : Bool
  cacheIsGlobal : Option Bool
  users : List (Nat × Account)
  members : List (Nat × List (Nat × Account))
  globalSettings : Settings
  guildSettings : List (Nat × Settings)
deriving DecidableEq

/-- Association-list lookup, modelling a Python dict read in insertion
order. -/
def alist_find {α : Type} : List (Nat × α) → Nat → Option α
  | [], _ => none
  | (k, v) :: t, i => if k = i then some v else alist_find t i

/-- Association-list write: update in place when the key exists, append
otherwise, exactly the insertion-order semantics of a Python dict write. -/
def alist_set {α : Type} : List (Nat × α) → Nat → α → List (Nat × α)
  | [], i, v => [(i, v)]
  | (k, w) :: t, i, v => if k = i then (i, v) :: t else (k, w) :: alist_set t i v

/-- Resolution of is_global: the cached value when primed, else the stored
flag (the first read primes the cache with exactly the stored flag, so the
resolved value is unchanged by priming). -/
def resolve_is_global (s : BankState) : Bool :=
  s.cacheIsGlobal.getD s.storedIsGlobal

/-- Settings of a guild: the stored record or the registered defaults. -/
def guild_settings_of (s : BankState) (g : Nat) : Settings :=
  (alist_find s.guildSettings g).getD defaultSettings

/-- Accounts of a guild in the member namespace (empty when the guild has
no stored accounts). -/
def guild_accounts (s : BankState) (g : Nat) : List (Nat × Account) :=
  (alist_find s.members g).getD []

/-- Embedding of get_max_balance (bank.py lines 792-820): global mode
ignores the guild argument; local mode requires one. -/
def get_max_balance (s : BankState) (guild : Option Nat) : Except BankErr Int :=
  if resolve_is_global s then .ok s.globalSettings.max_balance
  else match guild with
    | some g => .ok (guild_settings_of s g).max_balance
    | none => .error .runtimeMissingGuild

/-- Embedding of get_currency_name (bank.py lines 726-755). -/
def get_currency_name (s : BankState) (guild : Option Nat) : Except BankErr String :=
  if resolve_is_global s then .ok s.globalSettings.currency
  else match guild with
    | some g => .ok (guild_settings_of s g).currency
    | none => .error .runtimeMissingGuild

/-- Embedding of get_account (bank.py lines 571-602): reads the account of
the member in the active namespace, or an ephemeral default with the
default balance of the resolved scope; in local mode a member without a
guild raises AttributeError.  Never writes. -/
def get_account (s : BankState) (m : Member) : Except BankErr Account :=
  if resolve_is_global s then
    match alist_find s.users m.id with
    | some a => .ok a
    | none =>
        .ok { name := m.displayName, balance := s.globalSettings.default_balance, created_at := 0 }
  else
    match m.guildId with
    | none => .error .attrErr
    | some g =>
        match alist_find (guild_accounts s g) m.id with
        | some a => .ok a
        | none =>
            .ok { name := m.displayName, balance := (guild_settings_of s g).default_balance,
                  created_at := 0 }

/-- Embedding of get_balance (bank.py lines 199-214). -/
def get_balance (s : BankState) (m : Member) : Except BankErr Int :=
  (get_account s m).map (fun a => a.balance)

/-- Embedding of the helper at bank.py lines 299-300, whose body is the
comparison amount less than zero. -/
def invalid_amount (amount : Int) : Bool := decide (amount < 0)

/-- Embedding of can_spend (bank.py lines 217-244): an invalid amount
yields false without reading the balance; otherwise the comparison of the
current balance against the amount.  The source path performs no store
writes, so the embedding is pure in the state. -/
def can_spend (s : BankState) (m : Member) (amount : Int) : Except BankErr Bool :=
  if invalid_amount amount then .ok false
  else (get_balance s m).map (fun bal => decide (amount ≤ bal))

/-- The three store writes at the end of set_balance (bank.py lines
287-294): balance is set, created_at is set to the current time when it
was zero, name is set to the display name when it was empty. -/
def finalize_account (old : Account) (amount now : Int) (display : String) : Account :=
  let a1 : Account := { old with balance := amount }
  let a2 : Account := if a1.created_at = 0 then { a1 with created_at := now } else a1
  if a2.name = "" then { a2 with name := display } else a2

/-- Embedding of set_balance (bank.py lines 247-296).  The now argument is
the external current time read by the source on first persistence. -/
def set_balance (s : BankState) (m : Member) (amount now : Int) :
    BankState × Except BankErr Int :=
  if amount < 0 then (s, .error .negativeBalance)
  else
    match get_max_balance s m.guildId with
    | .error e => (s, .error e)
    | .ok max_bal =>
      if max_bal < amount then
        match get_currency_name s m.guildId with
        | .error e => (s, .error e)
        | .ok currency => (s, .error (.balanceTooHigh m.displayName max_bal currency))
      else
        if resolve_is_global s then
          let old := (alist_find s.users m.id).getD defaultAccount
          let acc := finalize_account old amount now m.displayName
          ({ s with users := alist_set s.users m.id acc }, .ok amount)
        else
          match m.guildId with
          | none => (s, .error .attrErr)
          | some g =>
            let old := (alist_find (guild_accounts s g) m.id).getD defaultAccount
            let acc := finalize_account old amount now m.displayName
            ({ s with members := alist_set s.members g (alist_set (guild_accounts s g) m.id acc) },
             .ok amount)

/-- Embedding of withdraw_credits (bank.py lines 303-339). -/
def withdraw_credits (s : BankState) (m : Member) (amount now : Int) :
    BankState × Except BankErr Int :=
  if invalid_amount amount then (s, .error .invalidAmount)
  else
    match get_balance s m with
    | .error e => (s, .error e)
    | .ok bal =>
      if bal < amount then (s, .error .insufficientFunds)
      else set_balance s m (bal - amount) now

/-- Embedding of deposit_credits (bank.py lines 342-373).  Note that the
guard is the shared helper comparing the amount against zero strictly, even
though the message of the raised ValueError describes the condition as
less-or-equal zero. -/
def deposit_credits (s : BankState) (m : Member) (amount now : Int) :
    BankState × Except BankErr Int :=
  if invalid_amount amount then (s, .error .invalidAmount)
  else
    match get_balance s m with
    | .error e => (s, .error e)
    | .ok bal => set_balance s m (amount + bal) now

/-- Embedding of transfer_credits (bank.py lines 376-421), generalized over
the scheduling point between the two awaits: the mid argument is the net
effect of any other tasks run while the transfer coroutine is suspended
between await withdraw_credits and await deposit_credits.  The isolated
sequential execution of the source is mid equal to the identity. -/
def transfer_credits_interleaved (mid : BankState → BankState) (s : BankState)
    (from_ to_ : Member) (amount now : Int) : BankState × Except BankErr Int :=
  if invalid_amount amount then (s, .error .invalidAmount)
  else
    match get_max_balance s to_.guildId with
    | .error e => (s, .error e)
    | .ok max_bal =>
      match get_balance s to_ with
      | .error e => (s, .error e)
      | .ok bal_to =>
        if max_bal < bal_to + amount then
          match get_currency_name s to_.guildId with
          | .error e => (s, .error e)
          | .ok currency => (s, .error (.balanceTooHigh to_.displayName max_bal currency))
        else
          match withdraw_credits s from_ amount now with
          | (s1, .error e) => (s1, .error e)
          | (s1, .ok _) => deposit_credits (mid s1) to_ amount now

/-- Embedding of transfer_credits run in isolation (no interleaving). -/
def transfer_credits (s : BankState) (from_ to_ : Member) (amount now : Int) :
    BankState × Except BankErr Int :=
  transfer_credits_interleaved id s from_ to_ amount now

/-- Embedding of set_global (bank.py lines 622-657): a no-op (apart from
cache priming) when the mode already matches; otherwise clear-all on the
namespace being left, then the stored flag, then the cache. -/
def set_global (s : BankState) (v : Bool) : BankState × Bool :=
  if resolve_is_global s = v then ({ s with cacheIsGlobal := some v }, v)
  else
    let s1 := if resolve_is_global s then { s with users := [] } else { s with members := [] }
    ({ s1 with storedIsGlobal := v, cacheIsGlobal := some v }, v)

/-- Outcome of the action wrapped by the cost decorator: normal return,
the AbortPurchase signal (bank.py lines 947-948), or any other raised
exception. -/
inductive ActionResult where
  | success (v : Int)
  | abortPurchase
  | failure (e : BankErr)
deriving DecidableEq

/-- Embedding of the function named wrapped produced by the cost decorator
(bank.py lines 976-996).  The hasGuild flag is whether context.guild is
set; author is context.author; action is the wrapped coroutine, which may
itself mutate the bank and reports one of the three outcomes.  A returned
none payload is the implicit None return of the abort branch. -/
def cost_wrapped (amount : Int) (author : Member) (hasGuild : Bool)
    (action : BankState → BankState × ActionResult) (s : BankState) (now : Int) :
    BankState × Except BankErr (Option Int) :=
  if hasGuild = false ∧ resolve_is_global s = false then (s, .error .userFeedback)
  else
    match withdraw_credits s author amount now with
    | (s0, .error _) => (s0, .error .userFeedback)
    | (s1, .ok _) =>
      match action s1 with
      | (s2, .success v) => (s2, .ok (some v))
      | (s2, .abortPurchase) =>
        match deposit_credits s2 author amount now with
        | (s3, .ok _) => (s3, .ok none)
        | (s3, .error e) => (s3, .error e)
      | (s2, .failure e) =>
        match deposit_credits s2 author amount now with
        | (s3, .ok _) => (s3, .error e)
        | (s3, .error e2) => (s3, .error e2)

/-- Insertion step of the descending sort: the new element is placed after
every element whose balance is at least its own, matching the stable
behavior of the sorted builtin with a reverse key comparison. -/
def ins_desc (x : Nat × Account) : List (Nat × Account) → List (Nat × Account)
  | [] => [x]
  | y :: ys => if x.2.balance ≤ y.2.balance then y :: ins_desc x ys else x :: y :: ys

/-- Tail of the stable descending sort, folding the input left to right
into an already sorted accumulator. -/
def sort_desc_go : List (Nat × Account) → List (Nat × Account) → List (Nat × Account)
  | [], acc => acc
  | x :: xs, acc => sort_desc_go xs (ins_desc x acc)

/-- Stable sort by balance descending, the embedding of the sorted call
with a balance key and reverse order at bank.py line 535. -/
def sort_desc (l : List (Nat × Account)) : List (Nat × Account) :=
  sort_desc_go l []

/-- Embedding of get_leaderboard (bank.py lines 501-536): in global mode
all user accounts, optionally filtered to members of a supplied guild; in
local mode the accounts of the mandatory guild; sorted stably by balance
descending and truncated to the requested number of positions. -/
def get_leaderboard (s : BankState) (positions : Option Nat) (guild : Option GuildObj) :
    Except BankErr (List (Nat × Account)) :=
  if resolve_is_global s then
    let raw := match guild with
      | some g => s.users.filter (fun p => g.member_ids.contains p.1)
      | none => s.users
    let sorted := sort_desc raw
    .ok (match positions with | none => sorted | some n => sorted.take n)
  else match guild with
    | none => .error .typeMissingGuild
    | some g =>
      let sorted := sort_desc (guild_accounts s g.id)
      .ok (match positions with | none => sorted | some n => sorted.take n)

/-- One balance-mutating operation of the public interface, with the
member arguments and the amount. -/
inductive BankOp where
  | setBal (m : Member) (amount : Int)
  | withdraw (m : Member) (amount : Int)
  | deposit (m : Member) (amount : Int)
  | transfer (from_ to_ : Member) (amount : Int)
deriving DecidableEq

/-- Dispatch of one operation at a given current time. -/
def run_op (op : BankOp) (now : Int) (s : BankState) : BankState × Except BankErr Int :=
  match op with
  | .setBal m a => set_balance s m a now
  | .withdraw m a => withdraw_credits s m a now
  | .deposit m a => deposit_credits s m a now
  | .transfer f t a => transfer_credits s f t a now

/-- Run of a sequence of operations, each with its own current time; the
boolean reports whether every operation completed without error, and the
state is the one reached when the run stopped. -/
def run_ops : List (BankOp × Int) → BankState → BankState × Bool
  | [], s => (s, true)
  | (op, now) :: rest, s =>
    match run_op op now s with
    | (s1, .ok _) => run_ops rest s1
    | (s1, .error _) => (s1, false)

/-- Bounds check of one account against a maximum balance. -/
def acc_ok (maxB : Int) (a : Account) : Bool :=
  decide (0 ≤ a.balance) && decide (a.balance ≤ maxB)

/-- The balance invariant: every persisted account of the user namespace is
within the global bounds and every persisted account of each guild is
within the bounds of that guild. -/
def inv_holds (s : BankState) : Bool :=
  s.users.all (fun p => acc_ok s.globalSettings.max_balance p.2) &&
  s.members.all (fun gp => gp.2.all (fun p => acc_ok (guild_settings_of s gp.1).max_balance p.2))

/-- A Python numeric value as stored in legacy bank data: an integer or a
float (floats are represented exactly as rationals; every binary float is
rational). -/
inductive PyNum where
  | intVal (n : Int)
  | floatVal (q : Rat)
deriving DecidableEq

/-- Python int coercion of a numeric value: the identity on integers and
truncation toward zero on floats (Int.tdiv is T-division). -/
def py_int : PyNum → Int
  | .intVal n => n
  | .floatVal q => Int.tdiv q.num q.den

/-- A raw persisted account record as the migration sees it: the balance
key may be absent, in which case the record is left alone. -/
structure RawAccount where
  balance : Option PyNum
  name : String
  created_at : Int
deriving DecidableEq

/-- The raw persisted bank data the migration operates on: the schema
version, the user namespace and the member namespace. -/
structure RawState where
  schemaVersion : Nat
  users : List (Nat × RawAccount)
  members : List (Nat × List (Nat × RawAccount))
deriving DecidableEq

/-- The per-record step of the migration (bank.py lines 111-112 and
119-120): when the balance key is present, coerce its value with int. -/
def trunc_account (a : RawAccount) : RawAccount :=
  { a with balance := a.balance.map (fun v => PyNum.intVal (py_int v)) }

/-- Embedding of the schema zero to one step (bank.py lines 100-121):
coerce every balance in the user namespace and in every guild of the
member namespace. -/
def schema_0_to_1 (s : RawState) : RawState :=
  { s with
    users := s.users.map (fun p => (p.1, trunc_account p.2))
    members := s.members.map (fun gp => (gp.1, gp.2.map (fun p => (p.1, trunc_account p.2)))) }

/-- Embedding of the migration driver (bank.py lines 88-97): a no-op at
the current schema version; from version zero, run the step and only then
set the version to one. -/
def migrate_config (s : RawState) : RawState :=
  if s.schemaVersion = 1 then s
  else if s.schemaVersion = 0 then
    { schema_0_to_1 s with schemaVersion := 1 }
  else s

/-- Identity of the persisted account a member resolves to: the user id in
global mode, the pair of guild id and user id in local mode, and none for
a guildless member in local mode (no account is reachable). -/
def acct_key (s : BankState) (m : Member) : Option (Nat ⊕ (Nat × Nat)) :=
  if resolve_is_global s then some (Sum.inl m.id) else m.guildId.map (fun g => Sum.inr (g, m.id))

theorem alist_find_set_same {α : Type} (l : List (Nat × α)) (k : Nat) (v : α) :
    alist_find (alist_set l k v) k = some v := by
  induction l with
  | nil => simp [alist_set, alist_find]
  | cons p t ih =>
    by_cases hk : p.1 = k
    · simp [alist_set, hk, alist_find]
    · simp [alist_set, hk, alist_find, ih]

theorem alist_find_set_ne {α : Type} (l : List (Nat × α)) (k j : Nat) (v : α) (hne : k ≠ j) :
    alist_find (alist_set l k v) j = alist_find l j := by
  induction l with
  | nil => simp [alist_set, alist_find, hne]
  | cons p t ih =>
    by_cases hk : p.1 = k
    · simp [alist_set, hk, alist_find, hne, Ne.symm hne]
    · simp [alist_set, hk, alist_find, ih]

theorem alist_set_all {α : Type} (l : List (Nat × α)) (k : Nat) (v : α)
    (f : α → Bool) (hl : l.all (fun p => f p.2) = true) (hv : f v = true) :
    (alist_set l k v).all (fun p => f p.2) = true := by
  induction l with
  | nil => simpa [alist_set] using hv
  | cons p t ih =>
    simp only [List.all_cons, Bool.and_eq_true] at hl
    by_cases hk : p.1 = k
    · simp [alist_set, hk, hv, hl.2]
    · exact by simp [alist_set, hk, hl.1, ih hl.2]

theorem alist_find_mem {α : Type} (l : List (Nat × α)) (k : Nat) (v : α)
    (h : alist_find l k = some v) : (k, v) ∈ l := by
  induction l with
  | nil => simp [alist_find] at h
  | cons p t ih =>
    obtain ⟨k1, v1⟩ := p
    by_cases hk : k1 = k
    · subst hk
      simp only [alist_find, if_pos rfl] at h
      cases h
      exact List.mem_cons_self _ _
    · simp only [alist_find, if_neg hk] at h
      exact List.mem_cons_of_mem _ (ih h)

theorem finalize_account_balance (old : Account) (amount now : Int) (display : String) :
    (finalize_account old amount now display).balance = amount := by
  unfold finalize_account
  dsimp only
  split <;> split <;> rfl

theorem set_balance_ok_elim (s : BankState) (m : Member) (a now : Int) (s' : BankState) (r : Int)
    (h : set_balance s m a now = (s', .ok r)) :
    r = a ∧ 0 ≤ a ∧ s'.storedIsGlobal = s.storedIsGlobal ∧ s'.cacheIsGlobal = s.cacheIsGlobal ∧
    s'.globalSettings = s.globalSettings ∧ s'.guildSettings = s.guildSettings ∧
    ((resolve_is_global s = true ∧ a ≤ s.globalSettings.max_balance ∧
        s'.users = alist_set s.users m.id
          (finalize_account ((alist_find s.users m.id).getD defaultAccount) a now m.displayName) ∧
        s'.members = s.members) ∨
     (resolve_is_global s = false ∧ ∃ g, m.guildId = some g ∧
        a ≤ (guild_settings_of s g).max_balance ∧
        s'.members = alist_set s.members g
          (alist_set (guild_accounts s g) m.id
            (finalize_account ((alist_find (guild_accounts s g) m.id).getD defaultAccount) a now
              m.displayName)) ∧
        s'.users = s.users)) := by
  unfold set_balance at h
  split at h
  · simp at h
  next hnotneg =>
    split at h
    · simp at h
    next max_bal hmax =>
      split at h
      · split at h <;> simp at h
      next hnotover =>
        split at h
        next hglob =>
          rw [Prod.mk.injEq] at h
          obtain ⟨hs, hr⟩ := h
          simp only [Except.ok.injEq] at hr
          subst hr
          subst hs
          simp only [get_max_balance, hglob, if_true, Except.ok.injEq] at hmax
          subst hmax
          refine ⟨rfl, by omega, rfl, rfl, rfl, rfl, Or.inl ⟨hglob, by omega, rfl, rfl⟩⟩
        next hglob =>
          split at h
          · simp at h
          next g hg =>
            rw [Prod.mk.injEq] at h
            obtain ⟨hs, hr⟩ := h
            simp only [Except.ok.injEq] at hr
            subst hr
            subst hs
            rw [Bool.not_eq_true] at hglob
            simp only [get_max_balance, hglob, if_false, hg, Except.ok.injEq,
              Bool.false_eq_true] at hmax
            subst hmax
            exact ⟨rfl, by omega, rfl, rfl, rfl, rfl,
              Or.inr ⟨hglob, g, hg, by omega, rfl, rfl⟩⟩

theorem set_balance_error_state (s : BankState) (m : Member) (a now : Int) (s' : BankState)
    (e : BankErr) (h : set_balance s m a now = (s', .error e)) : s' = s := by
  unfold set_balance at h
  split at h
  · exact (Prod.mk.injEq .. ▸ h).1.symm
  split at h
  · exact (Prod.mk.injEq .. ▸ h).1.symm
  split at h
  · split at h
    · exact (Prod.mk.injEq .. ▸ h).1.symm
    · exact (Prod.mk.injEq .. ▸ h).1.symm
  split at h
  · simp at h
  split at h
  · exact (Prod.mk.injEq .. ▸ h).1.symm
  · simp at h

theorem resolve_congr (s s' : BankState) (h1 : s'.cacheIsGlobal = s.cacheIsGlobal)
    (h2 : s'.storedIsGlobal = s.storedIsGlobal) :
    resolve_is_global s' = resolve_is_global s := by
  unfold resolve_is_global
  rw [h1, h2]

theorem guild_settings_congr (s s' : BankState) (h : s'.guildSettings = s.guildSettings)
    (g : Nat) : guild_settings_of s' g = guild_settings_of s g := by
  unfold guild_settings_of
  rw [h]

theorem acct_key_congr (s s' : BankState) (h1 : s'.cacheIsGlobal = s.cacheIsGlobal)
    (h2 : s'.storedIsGlobal = s.storedIsGlobal) (m : Member) :
    acct_key s' m = acct_key s m := by
  unfold acct_key
  rw [resolve_congr s s' h1 h2]

theorem get_balance_after_set_same (s : BankState) (m : Member) (a now : Int) (s' : BankState)
    (r : Int) (h : set_balance s m a now = (s', .ok r)) : get_balance s' m = .ok a := by
  obtain ⟨-, -, hst, hca, hgs, hgu, hcase⟩ := set_balance_ok_elim s m a now s' r h
  have hres : resolve_is_global s' = resolve_is_global s := resolve_congr s s' hca hst
  rcases hcase with ⟨hglob, -, husers, -⟩ | ⟨hglob, g, hg, -, hmembers, -⟩
  · unfold get_balance get_account
    rw [hres, hglob]
    simp only [if_true, husers, alist_find_set_same, finalize_account_balance, Except.map]
  · unfold get_balance get_account
    rw [hres, hglob]
    simp only [Bool.false_eq_true, if_false, hg]
    unfold guild_accounts
    rw [hmembers, alist_find_set_same]
    simp only [Option.getD_some, alist_find_set_same, finalize_account_balance, Except.map]

theorem get_account_after_set_other (s : BankState) (m m' : Member) (a now : Int)
    (s' : BankState) (r : Int) (h : set_balance s m a now = (s', .ok r))
    (hne : acct_key s m' ≠ acct_key s m) : get_account s' m' = get_account s m' := by
  obtain ⟨-, -, hst, hca, hgs, hgu, hcase⟩ := set_balance_ok_elim s m a now s' r h
  have hres : resolve_is_global s' = resolve_is_global s := resolve_congr s s' hca hst
  rcases hcase with ⟨hglob, -, husers, hmembers⟩ | ⟨hglob, g, hg, -, hmembers, husers⟩
  · have hid : m'.id ≠ m.id := by
      intro hid
      exact hne (by unfold acct_key; rw [hglob, hid]; simp)
    unfold get_account
    rw [hres, hglob]
    simp only [if_true, husers, alist_find_set_ne _ _ _ _ (fun hx => hid hx.symm), hgs]
  · unfold get_account
    rw [hres, hglob]
    simp only [Bool.false_eq_true, if_false]
    cases hmg : m'.guildId with
    | none => rfl
    | some g' =>
      have hkey : (g', m'.id) ≠ (g, m.id) := by
        intro hx
        apply hne
        unfold acct_key
        rw [hglob, hg, hmg]
        simp [hx]
      by_cases hgg : g' = g
      · subst hgg
        have hid : m.id ≠ m'.id := by
          intro hx
          exact hkey (by rw [hx])
        have hacc : guild_accounts s' g' =
            alist_set (guild_accounts s g') m.id
              (finalize_account ((alist_find (guild_accounts s g') m.id).getD defaultAccount) a
                now m.displayName) := by
          unfold guild_accounts
          rw [hmembers, alist_find_set_same]
          rfl
        dsimp only
        rw [hacc, alist_find_set_ne _ _ _ _ hid, guild_settings_congr s s' hgu]
      · have hacc : guild_accounts s' g' = guild_accounts s g' := by
          unfold guild_accounts
          rw [hmembers, alist_find_set_ne _ _ _ _ (fun hx => hgg hx.symm)]
        dsimp only
        rw [hacc, guild_settings_congr s s' hgu]

theorem get_balance_after_set_other (s : BankState) (m m' : Member) (a now : Int)
    (s' : BankState) (r : Int) (h : set_balance s m a now = (s', .ok r))
    (hne : acct_key s m' ≠ acct_key s m) : get_balance s' m' = get_balance s m' := by
  unfold get_balance
  rw [get_account_after_set_other s m m' a now s' r h hne]

theorem withdraw_ok_elim (s : BankState) (m : Member) (a now : Int) (s' : BankState) (r : Int)
    (h : withdraw_credits s m a now = (s', .ok r)) :
    invalid_amount a = false ∧ ∃ bal, get_balance s m = .ok bal ∧ a ≤ bal ∧
      set_balance s m (bal - a) now = (s', .ok r) := by
  unfold withdraw_credits at h
  split at h
  · simp at h
  next hval =>
    split at h
    · simp at h
    next bal hbal =>
      split at h
      · simp at h
      next hins => exact ⟨by simpa using hval, bal, hbal, by omega, h⟩

theorem deposit_ok_elim (s : BankState) (m : Member) (a now : Int) (s' : BankState) (r : Int)
    (h : deposit_credits s m a now = (s', .ok r)) :
    invalid_amount a = false ∧ ∃ bal, get_balance s m = .ok bal ∧
      set_balance s m (a + bal) now = (s', .ok r) := by
  unfold deposit_credits at h
  split at h
  · simp at h
  next hval =>
    split at h
    · simp at h
    next bal hbal => exact ⟨by simpa using hval, bal, hbal, h⟩

theorem withdraw_error_state (s : BankState) (m : Member) (a now : Int) (s' : BankState)
    (e : BankErr) (h : withdraw_credits s m a now = (s', .error e)) : s' = s := by
  unfold withdraw_credits at h
  split at h
  · exact (Prod.mk.injEq .. ▸ h).1.symm
  split at h
  · exact (Prod.mk.injEq .. ▸ h).1.symm
  split at h
  · exact (Prod.mk.injEq .. ▸ h).1.symm
  · exact set_balance_error_state _ _ _ _ _ _ h

theorem deposit_error_state (s : BankState) (m : Member) (a now : Int) (s' : BankState)
    (e : BankErr) (h : deposit_credits s m a now = (s', .error e)) : s' = s := by
  unfold deposit_credits at h
  split at h
  · exact (Prod.mk.injEq .. ▸ h).1.symm
  split at h
  · exact (Prod.mk.injEq .. ▸ h).1.symm
  · exact set_balance_error_state _ _ _ _ _ _ h

theorem transfer_ok_elim (mid : BankState → BankState) (s : BankState) (f t : Member)
    (a now : Int) (s' : BankState) (r : Int)
    (h : transfer_credits_interleaved mid s f t a now = (s', .ok r)) :
    invalid_amount a = false ∧ ∃ maxB balT s1 w, get_max_balance s t.guildId = .ok maxB ∧
      get_balance s t = .ok balT ∧ balT + a ≤ maxB ∧
      withdraw_credits s f a now = (s1, .ok w) ∧
      deposit_credits (mid s1) t a now = (s', .ok r) := by
  unfold transfer_credits_interleaved at h
  split at h
  · simp at h
  next hval =>
    split at h
    · simp at h
    next maxB hmax =>
      split at h
      · simp at h
      next balT hbal =>
        split at h
        · split at h <;> simp at h
        next hover =>
          split at h
          · simp at h
          next s1 w hw =>
            exact ⟨by simpa using hval, maxB, balT, s1, w, hmax, hbal, by omega, hw, h⟩

/-- Display name used by concrete test states. -/
def aliceName : String := "alice"

/-- Display name used by concrete test states. -/
def bobName : String := "bob"

/-- Display name used by concrete test states. -/
def carolName : String := "carol"

/-- Currency name of the registered defaults. -/
def creditsName : String := "credits"

/-- A global-mode bank state with one persisted account of balance ten and
a generous maximum, used to instantiate hypotheses of the claim theorems. -/
def stateW : BankState :=
  { storedIsGlobal := true
    cacheIsGlobal := none
    users := [(1, { name := aliceName, balance := 10, created_at := 5 })]
    members := []
    globalSettings :=
      { bank_name := "Twentysix bank", currency := "credits", default_balance := 100,
        max_balance := 1000 }
    guildSettings := [] }

/-- The member owning the account of stateW. -/
def memberW : Member := { id := 1, guildId := none, displayName := aliceName }

/-- A local-mode bank state with one guild holding two persisted accounts. -/
def stateLocalW : BankState :=
  { storedIsGlobal := false
    cacheIsGlobal := none
    users := []
    members := [(40, [(1, { name := aliceName, balance := 3, created_at := 5 }),
                      (2, { name := bobName, balance := 9, created_at := 5 })])]
    globalSettings :=
      { bank_name := "Twentysix bank", currency := "credits", default_balance := 100,
        max_balance := 1000 }
    guildSettings := [] }

/-- A second global-mode account in stateC2, for transfer scenarios. -/
def bobW : Member := { id := 2, guildId := none, displayName := bobName }

/-- Global-mode state with two persisted accounts for transfer scenarios. -/
def stateC2 : BankState :=
  { stateW with users := [(1, { name := aliceName, balance := 10, created_at := 5 }),
                          (2, { name := bobName, balance := 7, created_at := 5 })] }

/-- Source member of the tight-cap transfer scenario. -/
def fromC1 : Member := { id := 1, guildId := none, displayName := aliceName }

/-- Destination member of the tight-cap transfer scenario. -/
def toC1 : Member := { id := 2, guildId := none, displayName := bobName }

/-- Global-mode state whose maximum balance is ten, with the source at ten
and the destination at zero, so a transfer of ten passes the pre-check
with no room to spare. -/
def stateC1 : BankState :=
  { storedIsGlobal := true
    cacheIsGlobal := none
    users := [(1, { name := aliceName, balance := 10, created_at := 5 }),
              (2, { name := bobName, balance := 0, created_at := 5 })]
    members := []
    globalSettings :=
      { bank_name := "Twentysix bank", currency := "credits", default_balance := 100,
        max_balance := 10 }
    guildSettings := [] }

/-- Interference for the transfer scenario: while the transfer coroutine
is suspended between its two awaits, another task deposits five into the
destination account. -/
def midC1 : BankState → BankState := fun st => (deposit_credits st toC1 5 6).1

/-- State after the successful withdrawal of the interleaved transfer. -/
def s1C1 : BankState := (withdraw_credits stateC1 fromC1 10 6).1

/-- State after the interference, right before the deposit attempt. -/
def s2C1 : BankState := midC1 s1C1

end Bank

namespace Bank

/-- C10: can_spend returns false rather than raising on a negative amount,
and otherwise reports exactly whether the current balance is at least the
amount.  The source path of can_spend performs no store writes (it only
calls get_balance, which never writes), which the embedding reflects by
being a pure function of the state. -/
theorem c10_can_spend_spec (s : BankState) (m : Member) (a : Int) :
    (a < 0 → can_spend s m a = .ok false) ∧
    (0 ≤ a → ∀ b, get_balance s m = .ok b → can_spend s m a = .ok (decide (a ≤ b))) := by
  constructor
  · intro h
    simp [can_spend, invalid_amount, h]
  · intro h b hb
    have hnot : ¬ a < 0 := by omega
    simp [can_spend, invalid_amount, hnot, hb, Except.map]

/-- Witness for C10 at the concrete state stateW, whose account holds ten:
a negative amount yields false and a spendable amount yields true. -/
theorem c10_witness :
    can_spend stateW memberW (-1) = .ok false ∧ can_spend stateW memberW 5 = .ok true := by
  constructor
  · exact (c10_can_spend_spec stateW memberW (-1)).1 (by decide)
  · have h := (c10_can_spend_spec stateW memberW 5).2 (by decide) 10 (by decide)
    simpa using h

/-- C4 (code bug evaluation): the source rejects a deposit only when the
amount is strictly negative, because the shared guard at bank.py lines
299-300 tests amount less than zero, while the error message of
deposit_credits itself (line 369) and the specification both describe the
invalid range as less-or-equal zero.  Consequently a deposit of exactly
zero is accepted and returns the unchanged balance instead of failing with
the invalid-amount error, as this concrete run shows. -/
theorem c4_zero_deposit_accepted :
    invalid_amount 0 = false ∧
    deposit_credits stateW memberW 0 7 = (stateW, .ok 10) ∧
    get_balance stateW memberW = .ok 10 := by
  refine ⟨rfl, ?_, by decide⟩
  decide

/-- C3: when the destination pre-check of transfer_credits trips, the
BalanceTooHigh error is raised before the withdrawal, so the returned
state is literally the input state: both balances (and everything else)
are exactly as before the call. -/
theorem c3_precheck_no_mutation (s : BankState) (f t : Member) (a now : Int)
    (maxB bT : Int) (c : String)
    (hval : invalid_amount a = false)
    (hmax : get_max_balance s t.guildId = .ok maxB)
    (hbT : get_balance s t = .ok bT)
    (hcur : get_currency_name s t.guildId = .ok c)
    (hover : maxB < bT + a) :
    transfer_credits s f t a now = (s, .error (.balanceTooHigh t.displayName maxB c)) := by
  unfold transfer_credits transfer_credits_interleaved
  rw [hval, hmax, hbT, hcur]
  simp [hover]

/-- Witness for C3: a transfer of eleven into an account at zero with a
maximum of ten is rejected and the state is returned unchanged. -/
theorem c3_witness :
    transfer_credits stateC1 fromC1 toC1 11 6 =
      (stateC1, .error (.balanceTooHigh bobName 10 creditsName)) :=
  c3_precheck_no_mutation stateC1 fromC1 toC1 11 6 10 0 creditsName (by decide) (by decide)
    (by decide) (by decide) (by decide)

/-- C2: a transfer that completes without error moves exactly the amount
between the two distinct accounts, conserves the sum of the two balances,
and returns the new balance of the destination. -/
theorem c2_transfer_conservation (s : BankState) (f t : Member) (a now : Int)
    (s' : BankState) (r bF bT : Int)
    (hkey : acct_key s f ≠ acct_key s t)
    (hbF : get_balance s f = .ok bF) (hbT : get_balance s t = .ok bT)
    (h : transfer_credits s f t a now = (s', .ok r)) :
    get_balance s' f = .ok (bF - a) ∧ get_balance s' t = .ok (bT + a) ∧
    (bF - a) + (bT + a) = bF + bT ∧ r = bT + a := by
  obtain ⟨hval, maxB, balT, s1, w, hmax, hbalT, hover, hw, hdep⟩ :=
    transfer_ok_elim id s f t a now s' r h
  rw [hbT] at hbalT
  have hbteq : bT = balT := Except.ok.inj hbalT
  subst hbteq
  obtain ⟨-, balF, hbalF, hle, hset1⟩ := withdraw_ok_elim s f a now s1 w hw
  rw [hbF] at hbalF
  have hbfeq : bF = balF := Except.ok.inj hbalF
  subst hbfeq
  obtain ⟨-, -, hst1, hca1, -, -, -⟩ := set_balance_ok_elim s f (bF - a) now s1 w hset1
  have hb1f : get_balance s1 f = .ok (bF - a) :=
    get_balance_after_set_same s f (bF - a) now s1 w hset1
  have hb1t : get_balance s1 t = .ok bT := by
    rw [get_balance_after_set_other s f t (bF - a) now s1 w hset1 (Ne.symm hkey)]
    exact hbT
  simp only [id_eq] at hdep
  obtain ⟨-, bal2, hbal2, hset2⟩ := deposit_ok_elim s1 t a now s' r hdep
  rw [hb1t] at hbal2
  have hb2eq : bT = bal2 := Except.ok.inj hbal2
  subst hb2eq
  obtain ⟨hr, -, -, -, -, -, -⟩ := set_balance_ok_elim s1 t (a + bT) now s' r hset2
  have hkey1 : acct_key s1 f ≠ acct_key s1 t := by
    rw [acct_key_congr s s1 hca1 hst1 f, acct_key_congr s s1 hca1 hst1 t]
    exact hkey
  have hft : get_balance s' f = .ok (bF - a) := by
    rw [get_balance_after_set_other s1 t f (a + bT) now s' r hset2 hkey1]
    exact hb1f
  have htt : get_balance s' t = .ok (a + bT) :=
    get_balance_after_set_same s1 t (a + bT) now s' r hset2
  have hcomm : a + bT = bT + a := add_comm a bT
  refine ⟨hft, ?_, by ring, by omega⟩
  rw [htt, hcomm]

/-- Final state of a concrete successful transfer of four between the two
accounts of stateC2. -/
def sC2f : BankState := (transfer_credits stateC2 fromC1 toC1 4 9).1

/-- Witness for C2: the concrete transfer of four from the account at ten
to the account at seven lands at six and eleven, conserving the sum. -/
theorem c2_witness :
    get_balance sC2f fromC1 = .ok (10 - 4) ∧ get_balance sC2f toC1 = .ok (7 + 4) ∧
    ((10 : Int) - 4) + (7 + 4) = 10 + 7 ∧ (11 : Int) = 7 + 4 :=
  c2_transfer_conservation stateC2 fromC1 toC1 4 9 sC2f 11 10 7 (by decide) (by decide)
    (by decide) (by decide)

/-- C1 (amended): transfer_credits performs no compensation.  A deposit
failure after a successful withdrawal is reachable only when another task
changes the destination while the transfer coroutine is suspended between
its two awaits (the mid parameter); in that situation the error of the
failed deposit — a normal validation error such as BalanceTooHigh —
propagates to the caller unchanged, the source defines no distinct
reconciliation error, and the resulting state is exactly the
post-withdrawal state: the withdrawn amount is never re-credited. -/
theorem c1_no_compensation (mid : BankState → BankState) (s : BankState) (f t : Member)
    (a now maxB bT : Int) (s1 s2 : BankState) (w : Int) (e : BankErr)
    (hval : invalid_amount a = false)
    (hmax : get_max_balance s t.guildId = .ok maxB)
    (hbT : get_balance s t = .ok bT)
    (hover : bT + a ≤ maxB)
    (hw : withdraw_credits s f a now = (s1, .ok w))
    (hdep : deposit_credits (mid s1) t a now = (s2, .error e)) :
    transfer_credits_interleaved mid s f t a now = (s2, .error e) ∧ s2 = mid s1 := by
  constructor
  · unfold transfer_credits_interleaved
    have hnot : ¬ maxB < bT + a := not_lt.mpr hover
    simp only [hval, hmax, hbT, hw, hdep, Bool.false_eq_true, if_false, if_neg hnot]
  · exact deposit_error_state _ _ _ _ _ _ hdep

/-- Counterexample for C1 as stated: on the concrete tight-cap state the
withdrawal succeeds (the source drops from ten to zero), the interfering
deposit raises the destination to five, the deposit step then fails with
BalanceTooHigh — and transfer_credits surfaces exactly that ordinary
validation error, with the source still at zero: no re-credit is
attempted and no distinct reconciliation error exists. -/
theorem c1_counterexample :
    withdraw_credits stateC1 fromC1 10 6 = (s1C1, .ok 0) ∧
    deposit_credits s2C1 toC1 10 6 = (s2C1, .error (.balanceTooHigh bobName 10 creditsName)) ∧
    transfer_credits_interleaved midC1 stateC1 fromC1 toC1 10 6 =
      (s2C1, .error (.balanceTooHigh bobName 10 creditsName)) ∧
    get_balance stateC1 fromC1 = .ok 10 ∧ get_balance s2C1 fromC1 = .ok 0 ∧
    get_balance s2C1 toC1 = .ok 5 := by
  decide

/-- Witness for C1 (amended) at the concrete interleaving of the
counterexample scenario. -/
theorem c1_witness :
    transfer_credits_interleaved midC1 stateC1 fromC1 toC1 10 6 =
      (s2C1, .error (.balanceTooHigh bobName 10 creditsName)) ∧ s2C1 = midC1 s1C1 :=
  c1_no_compensation midC1 stateC1 fromC1 toC1 10 6 10 0 s1C1 s2C1 0
    (.balanceTooHigh bobName 10 creditsName) (by decide) (by decide) (by decide) (by decide)
    (by decide) (by decide)

/-- Author of the guarded-purchase scenarios. -/
def authorC5 : Member := { id := 3, guildId := none, displayName := carolName }

/-- Global-mode state whose maximum balance is ten while the author
already holds twelve (reachable by lowering the maximum after balances
existed; set_max_balance does not touch accounts). -/
def stateC5 : BankState :=
  { storedIsGlobal := true
    cacheIsGlobal := none
    users := [(3, { name := carolName, balance := 12, created_at := 5 })]
    members := []
    globalSettings :=
      { bank_name := "Twentysix bank", currency := "credits", default_balance := 100,
        max_balance := 10 }
    guildSettings := [] }

/-- An action that raises AbortPurchase without touching the bank. -/
def abort_action : BankState → BankState × ActionResult := fun st => (st, .abortPurchase)

/-- State after the successful withdrawal of the over-cap guard scenario. -/
def s1C5 : BankState := (withdraw_credits stateC5 authorC5 5 6).1

/-- C5 (amended): when the withdrawal succeeds, the action aborts without
touching the bank, and the refund deposit itself succeeds — which can
only fail when the pre-call balance already exceeded the scope maximum —
the guard restores the balance exactly and consumes the abort signal: the
caller receives a plain successful return carrying no value. -/
theorem c5_abort_refund (amount : Int) (author : Member) (hasGuild : Bool)
    (action : BankState → BankState × ActionResult) (s : BankState) (now : Int)
    (s1 s3 : BankState) (w d b : Int)
    (hgate : hasGuild = true ∨ resolve_is_global s = true)
    (hw : withdraw_credits s author amount now = (s1, .ok w))
    (hact : action s1 = (s1, .abortPurchase))
    (hb : get_balance s author = .ok b)
    (hdep : deposit_credits s1 author amount now = (s3, .ok d)) :
    cost_wrapped amount author hasGuild action s now = (s3, .ok none) ∧
    get_balance s3 author = .ok b := by
  constructor
  · unfold cost_wrapped
    have hcond : ¬ (hasGuild = false ∧ resolve_is_global s = false) := by
      rcases hgate with hg | hg <;> simp [hg]
    rw [if_neg hcond]
    simp only [hw, hact, hdep]
  · obtain ⟨hvalid, balF, hbalF, hle, hset1⟩ := withdraw_ok_elim s author amount now s1 w hw
    rw [hb] at hbalF
    have hbeq : b = balF := Except.ok.inj hbalF
    subst hbeq
    have hb1 : get_balance s1 author = .ok (b - amount) :=
      get_balance_after_set_same s author (b - amount) now s1 w hset1
    obtain ⟨-, bal2, hbal2, hset2⟩ := deposit_ok_elim s1 author amount now s3 d hdep
    rw [hb1] at hbal2
    have hb2eq : b - amount = bal2 := Except.ok.inj hbal2
    subst hb2eq
    have h3 : get_balance s3 author = .ok (amount + (b - amount)) :=
      get_balance_after_set_same s1 author (amount + (b - amount)) now s3 d hset2
    have hsum : amount + (b - amount) = b := by ring
    rw [hsum] at h3
    exact h3

/-- Counterexample for C5 as stated: with the author at twelve and the
maximum at ten, the withdrawal of five succeeds and the action aborts, yet
the refund deposit fails with BalanceTooHigh; the caller sees that error
surface (not a silent consumption of the abort) and the balance stays at
seven instead of returning to twelve. -/
theorem c5_counterexample :
    withdraw_credits stateC5 authorC5 5 6 = (s1C5, .ok 7) ∧
    abort_action s1C5 = (s1C5, .abortPurchase) ∧
    cost_wrapped 5 authorC5 false abort_action stateC5 6 =
      (s1C5, .error (.balanceTooHigh carolName 10 creditsName)) ∧
    get_balance stateC5 authorC5 = .ok 12 ∧ get_balance s1C5 authorC5 = .ok 7 := by
  decide

/-- State after the withdrawal of the well-capped guard scenario. -/
def s1C5w : BankState := (withdraw_credits stateW memberW 4 6).1

/-- State after the refund deposit of the well-capped guard scenario. -/
def s3C5w : BankState := (deposit_credits s1C5w memberW 4 6).1

/-- Witness for C5 (amended) at a concrete state whose balance is within
the cap: the guard charges four, the action aborts, the refund restores
the balance of ten and the abort is consumed. -/
theorem c5_witness :
    cost_wrapped 4 memberW false abort_action stateW 6 = (s3C5w, .ok none) ∧
    get_balance s3C5w memberW = .ok 10 :=
  c5_abort_refund 4 memberW false abort_action stateW 6 s1C5w s3C5w 6 10 10
    (Or.inr (by decide)) (by decide) (by decide) (by decide) (by decide)

/-- C7: set_global is a no-op on the accounts when the requested mode
already holds (only the cache is primed with the resolved value, which
equals the stored flag); when the mode changes, the namespace being left
is cleared — and only that one — then the flag is stored and the cache
updated; and a second consecutive call with true changes nothing at all. -/
theorem c7_set_global_spec :
    (∀ s v, resolve_is_global s = v →
      set_global s v = ({ s with cacheIsGlobal := some v }, v)) ∧
    (∀ s, resolve_is_global s = true → set_global s false =
      ({ s with users := [], storedIsGlobal := false, cacheIsGlobal := some false }, false)) ∧
    (∀ s, resolve_is_global s = false → set_global s true =
      ({ s with members := [], storedIsGlobal := true, cacheIsGlobal := some true }, true)) ∧
    (∀ s, set_global (set_global s true).1 true = ((set_global s true).1, true)) := by
  refine ⟨?_, ?_, ?_, ?_⟩
  · intro s v h
    simp [set_global, h]
  · intro s h
    simp [set_global, h]
  · intro s h
    simp [set_global, h]
  · intro s
    by_cases h : resolve_is_global s = true
    · have e1 : set_global s true = ({ s with cacheIsGlobal := some true }, true) := by
        simp [set_global, h]
      rw [e1]
      have h2 : resolve_is_global { s with cacheIsGlobal := some true } = true := by
        simp [resolve_is_global]
      simp [set_global, h2]
    · rw [Bool.not_eq_true] at h
      have e1 : set_global s true =
          ({ s with members := [], storedIsGlobal := true, cacheIsGlobal := some true },
            true) := by
        simp [set_global, h]
      rw [e1]
      have h2 : resolve_is_global
          { s with members := [], storedIsGlobal := true, cacheIsGlobal := some true } =
          true := by
        simp [resolve_is_global]
      simp [set_global, h2]

/-- Witness for C7: the three behaviors at concrete global-mode and
local-mode states, and idempotence of switching to global twice. -/
theorem c7_witness :
    set_global stateW true = ({ stateW with cacheIsGlobal := some true }, true) ∧
    set_global stateW false =
      ({ stateW with users := [], storedIsGlobal := false, cacheIsGlobal := some false },
        false) ∧
    set_global stateLocalW true =
      ({ stateLocalW with members := [], storedIsGlobal := true, cacheIsGlobal := some true },
        true) ∧
    set_global (set_global stateW true).1 true = ((set_global stateW true).1, true) :=
  ⟨c7_set_global_spec.1 stateW true (by decide), c7_set_global_spec.2.1 stateW (by decide),
   c7_set_global_spec.2.2.1 stateLocalW (by decide), c7_set_global_spec.2.2.2 stateW⟩

/-- C9: running the migration from schema version zero coerces every
stored balance in both namespaces with the int truncation and sets the
version to one; running it again is a no-op on version and data alike.
In the source the version write textually follows the data normalization
(bank.py lines 95-97), so an interrupted run re-enters the same step. -/
theorem c9_migration_spec (s : RawState) (h : s.schemaVersion = 0) :
    (migrate_config s).schemaVersion = 1 ∧
    (migrate_config s).users = s.users.map (fun p => (p.1, trunc_account p.2)) ∧
    (migrate_config s).members =
      s.members.map (fun gp => (gp.1, gp.2.map (fun p => (p.1, trunc_account p.2)))) ∧
    migrate_config (migrate_config s) = migrate_config s := by
  have h1 : migrate_config s = { schema_0_to_1 s with schemaVersion := 1 } := by
    unfold migrate_config
    rw [h]
    simp
  refine ⟨by rw [h1], by rw [h1]; rfl, by rw [h1]; rfl, ?_⟩
  rw [h1]
  unfold migrate_config
  simp

/-- A fractional float value used by the migration witness. -/
def elevenHalves : Rat := mkRat 11 2

/-- Legacy raw bank data at schema version zero holding one float balance
of five in the user namespace and one fractional float balance in a guild
namespace. -/
def rawC9 : RawState :=
  { schemaVersion := 0
    users := [(1, { balance := some (PyNum.floatVal 5), name := aliceName, created_at := 0 })]
    members :=
      [(40, [(2, { balance := some (PyNum.floatVal elevenHalves), name := bobName,
                   created_at := 0 })])] }

/-- Witness for C9: the stored float five becomes the integer five, the
fractional eleven-halves truncates to five, the version becomes one, and a
second run changes nothing. -/
theorem c9_witness :
    (migrate_config rawC9).schemaVersion = 1 ∧
    (migrate_config rawC9).users =
      [(1, { balance := some (PyNum.intVal 5), name := aliceName, created_at := 0 })] ∧
    (migrate_config rawC9).members =
      [(40, [(2, { balance := some (PyNum.intVal 5), name := bobName, created_at := 0 })])] ∧
    migrate_config (migrate_config rawC9) = migrate_config rawC9 := by
  have h := c9_migration_spec rawC9 (by decide)
  exact ⟨h.1, by rw [h.2.1]; decide, by rw [h.2.2.1]; decide, h.2.2.2⟩

theorem alist_set_all_kv {α : Type} (l : List (Nat × α)) (k : Nat) (v : α)
    (f : Nat × α → Bool) (hl : l.all f = true) (hv : f (k, v) = true) :
    (alist_set l k v).all f = true := by
  induction l with
  | nil => simpa [alist_set] using hv
  | cons p t ih =>
    simp only [List.all_cons, Bool.and_eq_true] at hl
    by_cases hk : p.1 = k
    · simp [alist_set, hk, hv, hl.2]
    · simp [alist_set, hk, hl.1, ih hl.2]

theorem guild_accounts_all (s : BankState) (g : Nat) (f : Nat → Nat × Account → Bool)
    (h : s.members.all (fun gp => gp.2.all (f gp.1)) = true) :
    (guild_accounts s g).all (f g) = true := by
  unfold guild_accounts
  cases hfind : alist_find s.members g with
  | none => simp
  | some accs =>
    have hm := alist_find_mem s.members g accs hfind
    have h2 := (List.all_eq_true.mp h) (g, accs) hm
    simpa using h2

theorem set_balance_inv (s : BankState) (m : Member) (a now : Int)
    (hinv : inv_holds s = true) : inv_holds (set_balance s m a now).1 = true := by
  rcases hres : set_balance s m a now with ⟨s', r⟩
  cases r with
  | error e =>
    rw [set_balance_error_state s m a now s' e hres] at *
    exact hinv
  | ok v =>
    show inv_holds s' = true
    obtain ⟨-, h0, hst, hca, hgs, hgu, hcase⟩ := set_balance_ok_elim s m a now s' v hres
    unfold inv_holds at hinv ⊢
    rw [Bool.and_eq_true] at hinv
    obtain ⟨hu, hm⟩ := hinv
    rw [Bool.and_eq_true]
    rcases hcase with ⟨hglob, hmax, husers, hmembers⟩ | ⟨hglob, g, hg, hmax, hmembers, husers⟩
    · constructor
      · rw [husers, hgs]
        apply alist_set_all_kv _ _ _ _ hu
        simp only [acc_ok, finalize_account_balance, Bool.and_eq_true, decide_eq_true_eq]
        exact ⟨h0, hmax⟩
      · rw [hmembers]
        simp only [guild_settings_congr s s' hgu]
        exact hm
    · constructor
      · rw [husers, hgs]
        exact hu
      · rw [hmembers]
        simp only [guild_settings_congr s s' hgu]
        apply alist_set_all_kv _ _ _ _ hm
        dsimp only
        apply alist_set_all_kv _ _ _ _
          (guild_accounts_all s g
            (fun gid p => acc_ok (guild_settings_of s gid).max_balance p.2) hm)
        simp only [acc_ok, finalize_account_balance, Bool.and_eq_true, decide_eq_true_eq]
        exact ⟨h0, hmax⟩

theorem withdraw_inv (s : BankState) (m : Member) (a now : Int)
    (hinv : inv_holds s = true) : inv_holds (withdraw_credits s m a now).1 = true := by
  unfold withdraw_credits
  split
  · exact hinv
  split
  · exact hinv
  split
  · exact hinv
  · exact set_balance_inv _ _ _ _ hinv

theorem deposit_inv (s : BankState) (m : Member) (a now : Int)
    (hinv : inv_holds s = true) : inv_holds (deposit_credits s m a now).1 = true := by
  unfold deposit_credits
  split
  · exact hinv
  split
  · exact hinv
  · exact set_balance_inv _ _ _ _ hinv

theorem transfer_inv (s : BankState) (f t : Member) (a now : Int)
    (hinv : inv_holds s = true) : inv_holds (transfer_credits s f t a now).1 = true := by
  unfold transfer_credits transfer_credits_interleaved
  split
  · exact hinv
  split
  · exact hinv
  split
  · exact hinv
  split
  · split
    · exact hinv
    · exact hinv
  split
  next s1 e heq =>
    rw [withdraw_error_state s f a now s1 e heq] at *
    exact hinv
  next s1 w heq =>
    have h1 : inv_holds s1 = true := by
      have hx := withdraw_inv s f a now hinv
      rw [heq] at hx
      exact hx
    simpa using deposit_inv s1 t a now h1

theorem run_op_inv (op : BankOp) (now : Int) (s : BankState)
    (hinv : inv_holds s = true) : inv_holds (run_op op now s).1 = true := by
  cases op with
  | setBal m a => exact set_balance_inv s m a now hinv
  | withdraw m a => exact withdraw_inv s m a now hinv
  | deposit m a => exact deposit_inv s m a now hinv
  | transfer f t a => exact transfer_inv s f t a now hinv

theorem run_ops_inv (ops : List (BankOp × Int)) (s : BankState)
    (hinv : inv_holds s = true) : inv_holds (run_ops ops s).1 = true := by
  induction ops generalizing s with
  | nil => exact hinv
  | cons p rest ih =>
    rcases p with ⟨op, now⟩
    unfold run_ops
    rcases hop : run_op op now s with ⟨s1, r⟩
    have h1 : inv_holds s1 = true := by
      have hx := run_op_inv op now s hinv
      rw [hop] at hx
      exact hx
    cases r with
    | ok v => exact ih s1 h1
    | error e => exact h1

/-- C6: every successful run of a sequence of balance-mutating operations
(set balance, withdraw, deposit, transfer) preserves the invariant that
each persisted balance is an integer between zero and the maximum of its
resolved scope: the global maximum for user-namespace accounts and the
per-guild maximum for member-namespace accounts.  Every write in the
source flows through set_balance, which rejects negatives and
over-maximum values before writing. -/
theorem c6_bounds_invariant (ops : List (BankOp × Int)) (s s' : BankState)
    (hinv : inv_holds s = true) (h : run_ops ops s = (s', true)) :
    inv_holds s' = true := by
  have hall := run_ops_inv ops s hinv
  rw [h] at hall
  exact hall

/-- A concrete successful operation sequence for the C6 witness. -/
def opsC6 : List (BankOp × Int) :=
  [(BankOp.deposit fromC1 5, 7), (BankOp.withdraw fromC1 3, 8),
   (BankOp.transfer fromC1 toC1 2, 9)]

/-- Final state of that sequence, run from stateC2. -/
def sC6f : BankState := (run_ops opsC6 stateC2).1

/-- Witness for C6: the concrete three-operation run completes without
error and the bounds invariant still holds at the final state. -/
theorem c6_witness : inv_holds sC6f = true :=
  c6_bounds_invariant opsC6 stateC2 sC6f (by decide) (by decide)

theorem mem_ins_desc (x y : Nat × Account) (l : List (Nat × Account)) :
    y ∈ ins_desc x l ↔ y = x ∨ y ∈ l := by
  induction l with
  | nil => simp [ins_desc]
  | cons z zs ih =>
    by_cases hc : x.2.balance ≤ z.2.balance
    · simp only [ins_desc, if_pos hc, List.mem_cons, ih]
      tauto
    · simp only [ins_desc, if_neg hc, List.mem_cons]

theorem ins_desc_pairwise (x : Nat × Account) (l : List (Nat × Account))
    (h : l.Pairwise (fun u v => v.2.balance ≤ u.2.balance)) :
    (ins_desc x l).Pairwise (fun u v => v.2.balance ≤ u.2.balance) := by
  induction l with
  | nil => simp [ins_desc]
  | cons z zs ih =>
    rw [List.pairwise_cons] at h
    obtain ⟨hz, hzs⟩ := h
    by_cases hc : x.2.balance ≤ z.2.balance
    · simp only [ins_desc, if_pos hc]
      rw [List.pairwise_cons]
      refine ⟨?_, ih hzs⟩
      intro y hy
      rcases (mem_ins_desc x y zs).mp hy with rfl | hmem
      · exact hc
      · exact hz y hmem
    · simp only [ins_desc, if_neg hc]
      push_neg at hc
      rw [List.pairwise_cons]
      refine ⟨?_, ?_⟩
      · intro y hy
        rcases List.mem_cons.mp hy with rfl | hmem
        · exact le_of_lt hc
        · exact le_trans (hz y hmem) (le_of_lt hc)
      · rw [List.pairwise_cons]
        exact ⟨hz, hzs⟩

theorem sort_desc_go_pairwise (l acc : List (Nat × Account))
    (h : acc.Pairwise (fun u v => v.2.balance ≤ u.2.balance)) :
    (sort_desc_go l acc).Pairwise (fun u v => v.2.balance ≤ u.2.balance) := by
  induction l generalizing acc with
  | nil => exact h
  | cons x xs ih => exact ih (ins_desc x acc) (ins_desc_pairwise x acc h)

theorem sort_desc_pairwise (l : List (Nat × Account)) :
    (sort_desc l).Pairwise (fun u v => v.2.balance ≤ u.2.balance) :=
  sort_desc_go_pairwise l [] List.Pairwise.nil

theorem filter_head_lt (z : Nat × Account) (zs : List (Nat × Account)) (b : Int)
    (h : (z :: zs).Pairwise (fun u v => v.2.balance ≤ u.2.balance))
    (hz : z.2.balance < b) :
    (z :: zs).filter (fun p => decide (p.2.balance = b)) = [] := by
  rw [List.filter_eq_nil_iff]
  intro p hp
  simp only [decide_eq_true_eq]
  rcases List.mem_cons.mp hp with rfl | hmem
  · omega
  · rw [List.pairwise_cons] at h
    have := h.1 p hmem
    omega

theorem filter_ins_desc (x : Nat × Account) (l : List (Nat × Account)) (b : Int)
    (h : l.Pairwise (fun u v => v.2.balance ≤ u.2.balance)) :
    (ins_desc x l).filter (fun p => decide (p.2.balance = b)) =
      if x.2.balance = b then
        l.filter (fun p => decide (p.2.balance = b)) ++ [x]
      else l.filter (fun p => decide (p.2.balance = b)) := by
  induction l with
  | nil => by_cases hb : x.2.balance = b <;> simp [ins_desc, hb]
  | cons z zs ih =>
    have hz := (List.pairwise_cons.mp h).1
    have hzs := (List.pairwise_cons.mp h).2
    by_cases hc : x.2.balance ≤ z.2.balance
    · simp only [ins_desc, if_pos hc, List.filter_cons, ih hzs]
      by_cases hxb : x.2.balance = b
      · by_cases hzb : z.2.balance = b <;> simp [hxb, hzb]
      · by_cases hzb : z.2.balance = b <;> simp [hxb, hzb]
    · push_neg at hc
      simp only [ins_desc, if_neg (not_le.mpr hc), List.filter_cons]
      by_cases hxb : x.2.balance = b
      · have hzb : ¬ z.2.balance = b := by omega
        have hznil := filter_head_lt z zs b h (by omega)
        rw [List.filter_cons] at hznil
        simp only [hzb, decide_eq_true_eq, if_false] at hznil
        simp [hxb, hzb, hznil]
      · simp [hxb]

theorem filter_sort_desc_go (l acc : List (Nat × Account)) (b : Int)
    (h : acc.Pairwise (fun u v => v.2.balance ≤ u.2.balance)) :
    (sort_desc_go l acc).filter (fun p => decide (p.2.balance = b)) =
      acc.filter (fun p => decide (p.2.balance = b)) ++
        l.filter (fun p => decide (p.2.balance = b)) := by
  induction l generalizing acc with
  | nil => simp [sort_desc_go]
  | cons x xs ih =>
    have hstep := ih (ins_desc x acc) (ins_desc_pairwise x acc h)
    have hred : sort_desc_go (x :: xs) acc = sort_desc_go xs (ins_desc x acc) := rfl
    rw [hred, hstep, filter_ins_desc x acc b h]
    by_cases hxb : x.2.balance = b
    · simp [hxb, List.filter_cons, List.append_assoc]
    · simp [hxb, List.filter_cons]

theorem sort_desc_filter (l : List (Nat × Account)) (b : Int) :
    (sort_desc l).filter (fun p => decide (p.2.balance = b)) =
      l.filter (fun p => decide (p.2.balance = b)) := by
  have h := filter_sort_desc_go l [] b List.Pairwise.nil
  simpa [sort_desc] using h

/-- C8: the leaderboard is sorted by balance descending; the multiset of
entries at any fixed balance keeps exactly the original insertion order
and content (which is precisely stability of the sort, since entries with
equal balances appear in the output in their original order and nothing
is lost or added); a supplied positions limit truncates the unlimited
result; and in local mode a missing guild fails with the TypeError of
bank.py line 531. -/
theorem c8_leaderboard_spec :
    (∀ s pos, resolve_is_global s = false →
      get_leaderboard s pos none = .error .typeMissingGuild) ∧
    (∀ s pos guild out, get_leaderboard s pos guild = .ok out →
      out.Pairwise (fun u v => v.2.balance ≤ u.2.balance)) ∧
    (∀ s g out, resolve_is_global s = false →
      get_leaderboard s none (some g) = .ok out →
      ∀ b, out.filter (fun p => decide (p.2.balance = b)) =
        (guild_accounts s g.id).filter (fun p => decide (p.2.balance = b))) ∧
    (∀ s out, resolve_is_global s = true → get_leaderboard s none none = .ok out →
      ∀ b, out.filter (fun p => decide (p.2.balance = b)) =
        s.users.filter (fun p => decide (p.2.balance = b))) ∧
    (∀ s n guild out, get_leaderboard s none guild = .ok out →
      get_leaderboard s (some n) guild = .ok (out.take n)) := by
  refine ⟨?_, ?_, ?_, ?_, ?_⟩
  · intro s pos h
    simp [get_leaderboard, h]
  · intro s pos guild out h
    unfold get_leaderboard at h
    split at h
    · cases pos with
      | none =>
        simp only [Except.ok.injEq] at h
        subst h
        exact sort_desc_pairwise _
      | some n =>
        simp only [Except.ok.injEq] at h
        subst h
        exact List.Pairwise.sublist (List.take_sublist _ _) (sort_desc_pairwise _)
    · cases guild with
      | none => simp at h
      | some g =>
        cases pos with
        | none =>
          simp only [Except.ok.injEq] at h
          subst h
          exact sort_desc_pairwise _
        | some n =>
          simp only [Except.ok.injEq] at h
          subst h
          exact List.Pairwise.sublist (List.take_sublist _ _) (sort_desc_pairwise _)
  · intro s g out hres h b
    unfold get_leaderboard at h
    simp only [hres, Bool.false_eq_true, if_false, Except.ok.injEq] at h
    subst h
    exact sort_desc_filter _ b
  · intro s out hres h b
    unfold get_leaderboard at h
    simp only [hres, if_true, Except.ok.injEq] at h
    subst h
    exact sort_desc_filter _ b
  · intro s n guild out h
    cases guild with
    | none =>
      by_cases hres : resolve_is_global s = true
      · unfold get_leaderboard at h ⊢
        simp only [hres, if_true, Except.ok.injEq] at h ⊢
        subst h
        rfl
      · rw [Bool.not_eq_true] at hres
        unfold get_leaderboard at h
        simp [hres] at h
    | some g =>
      by_cases hres : resolve_is_global s = true
      · unfold get_leaderboard at h ⊢
        simp only [hres, if_true, Except.ok.injEq] at h ⊢
        subst h
        rfl
      · rw [Bool.not_eq_true] at hres
        unfold get_leaderboard at h ⊢
        simp only [hres, Bool.false_eq_true, if_false, Except.ok.injEq] at h ⊢
        subst h
        rfl

/-- The guild object of the local-mode leaderboard witness. -/
def guildC8 : GuildObj := { id := 40, member_ids := [1, 2] }

/-- Unlimited global leaderboard of stateC2. -/
def outC8g : List (Nat × Account) := sort_desc stateC2.users

/-- Unlimited local leaderboard of the guild of stateLocalW. -/
def outC8l : List (Nat × Account) := sort_desc (guild_accounts stateLocalW 40)

/-- Witness for C8: the five behaviors at concrete states — the local-mode
missing-guild failure, sortedness, stability at fixed balances nine and
seven, and truncation to one position. -/
theorem c8_witness :
    get_leaderboard stateLocalW none none = .error .typeMissingGuild ∧
    outC8g.Pairwise (fun u v => v.2.balance ≤ u.2.balance) ∧
    (outC8l.filter (fun p => decide (p.2.balance = 9)) =
      (guild_accounts stateLocalW 40).filter (fun p => decide (p.2.balance = 9))) ∧
    (outC8g.filter (fun p => decide (p.2.balance = 7)) =
      stateC2.users.filter (fun p => decide (p.2.balance = 7))) ∧
    get_leaderboard stateC2 (some 1) none = .ok (outC8g.take 1) :=
  ⟨c8_leaderboard_spec.1 stateLocalW none (by decide),
   c8_leaderboard_spec.2.1 stateC2 none none outC8g (by decide),
   c8_leaderboard_spec.2.2.1 stateLocalW guildC8 outC8l (by decide) (by decide) 9,
   c8_leaderboard_spec.2.2.2.1 stateC2 outC8g (by decide) (by decide) 7,
   c8_leaderboard_spec.2.2.2.2 stateC2 1 none outC8g (by decide)⟩

end Bank
